import Mathlib

/-!
Shallow embedding of the archive/export helpers of git-buildpackage:
`gbp/scripts/common/buildpackage.py` (prefix sanitizing, submodule-aware and
single archive assembly, tree dumping) and the command wrapper of
`git_buildpackage/__init__.py` (Command.__run / Command.__call__).

External effects (backend archive calls, tar concatenation, shell pipelines,
directory changes, temporary directories) are modelled as an explicit event
trace; the external world (exit codes, backend submodule lists, failure
injection) is an oracle record `Env`.  Python exceptions are modelled with
`Except PyErr`.
-/

/-- Python `s.strip(c)` on a character list: remove every leading and every
trailing occurrence of the character `c`. -/
def pyStrip (c : Char) (l : List Char) : List Char :=
  ((l.dropWhile (fun x => x == c)).reverse.dropWhile (fun x => x == c)).reverse

/-- Prefix sanitizing from buildpackage.py: strip all leading and trailing
slashes and append one slash for a non-empty prefix; a single slash for the
empty one. -/
def sanitize_prefix (p : String) : String :=
  if p = "" then "/" else String.mk (pyStrip '/' p.data) ++ "/"

/-- Python `s.startswith(pre)`: the characters of `pre` are a prefix of the
characters of `s`. -/
def py_startswith (s pre : String) : Bool :=
  pre.data.isPrefixOf s.data

/-- The submodule path adjustment `[subdir, subdir[2:]][subdir.startswith("./")]`
used by both git_archive_submodules and dump_tree. -/
def submodule_tarpath (subdir : String) : String :=
  if py_startswith subdir "./" then String.mk (subdir.data.drop 2) else subdir

/-- Python `s.rsplit(c, 1)[0]`: everything before the last occurrence of `c`,
or the whole string when `c` does not occur. -/
def rsplit1_first (s : String) (c : Char) : String :=
  if c ∈ s.data then
    String.mk (((s.data.reverse.dropWhile (fun x => x != c)).drop 1).reverse)
  else s

/-- Python2 `pipes.quote`: a non-empty string of shell-safe characters is
returned unchanged, the empty string becomes two quotes, anything else is
wrapped in single quotes with embedded quotes escaped. -/
def pipes_quote (file : String) : String :=
  if file.data.all (fun c => c.isAlpha || c.isDigit || c ∈ "@%_-+=:,./".data) then
    if file = "" then "\x27\x27" else file
  else
    "\x27" ++ String.mk (file.data.flatMap
      (fun c => if c == '\x27' then "\x27\x22\x27\x22\x27".data else [c])) ++ "\x27"

/-- Python2 `posixpath.split`: head is everything up to and including the last
slash (stripped of trailing slashes unless it consists only of slashes), tail
is everything after the last slash. -/
def posix_split (p : String) : String × String :=
  let tl := (p.data.reverse.takeWhile (fun c => c != '/')).reverse
  let hd := p.data.take (p.data.length - tl.length)
  let hd2 := if hd.isEmpty || hd.all (fun c => c == '/') then hd
             else (hd.reverse.dropWhile (fun c => c == '/')).reverse
  (String.mk hd2, String.mk tl)

/-- Python `os.path.dirname`. -/
def posix_dirname (p : String) : String := (posix_split p).1

/-- Python `os.path.basename`. -/
def posix_basename (p : String) : String := (posix_split p).2

/-- One observable external effect of the archive / export code. -/
inductive Event where
  | mkdtemp (dir : String)
  | rmtree (dir : String)
  | archive (pfx output treeish : String) (cwd : Option String)
  | catenate (tarfile subfile : String)
  | system (cmd : String)
  | pipeline (pre app infile outfile : String)
  | chdir (dir : String)
deriving DecidableEq

/-- A Python exception as seen by the code under study. -/
inductive PyErr where
  | gbpError (msg : String)
  | osError (msg : String)
  | exc (msg : String)
deriving DecidableEq

/-- Oracle for the external world: the answers of the repository backend and the
exit codes / failures of every external step. -/
structure Env where
  submodules : List (String × String)
  tempdir : String
  archive_raises : String → String → String → Option String → Bool
  catenate_raises : String → String → Bool
  os_system_ret : String → Nat
  pipe_ret : String → String → Nat
  has_submodules : Bool
  update_raises : Bool
  chdir_fails : String → Bool
  list_tree : List (String × String × String × String)

/-- The submodule loop of git_archive_submodules: for each `(subdir, commit)`
reported by the backend, archive the submodule at the adjusted prefix into the
staging tarfile and concatenate it onto the main tarfile.  A raising step
aborts the loop with the pending exception. -/
def archiveSubLoop (env : Env) (pfx tarfile subfile : String) :
    List (String × String) → Except PyErr Unit × List Event
  | [] => (Except.ok (), [])
  | (subdir, commit) :: rest =>
    let subpfx := pfx ++ submodule_tarpath subdir ++ "/"
    if env.archive_raises subpfx subfile commit (some subdir) then
      (Except.error (PyErr.exc "archive"), [])
    else if env.catenate_raises tarfile subfile then
      (Except.error (PyErr.exc "catenate"),
        [Event.archive subpfx subfile commit (some subdir)])
    else
      let r := archiveSubLoop env pfx tarfile subfile rest
      (r.1, Event.archive subpfx subfile commit (some subdir) ::
            Event.catenate tarfile subfile :: r.2)

/-- The `try:` block of git_archive_submodules: main archive, submodule loop,
then the compressor invocation whose non-zero status raises GbpError naming
the original output. -/
def gasTry (env : Env) (treeish output pfx tarfile subfile ct cl co : String) :
    Except PyErr Unit × List Event :=
  if env.archive_raises pfx tarfile treeish none then
    (Except.error (PyErr.exc "archive"), [])
  else
    let r := archiveSubLoop env pfx tarfile subfile env.submodules
    match r.1 with
    | Except.error e => (Except.error e, Event.archive pfx tarfile treeish none :: r.2)
    | Except.ok _ =>
      let cmd := ct ++ " -" ++ cl ++ " " ++ co ++ " " ++ tarfile
      if env.os_system_ret cmd ≠ 0 then
        (Except.error (PyErr.gbpError
            ("Error creating " ++ output ++ ": " ++ toString (env.os_system_ret cmd))),
          Event.archive pfx tarfile treeish none :: (r.2 ++ [Event.system cmd]))
      else
        (Except.ok (), Event.archive pfx tarfile treeish none :: (r.2 ++ [Event.system cmd]))

/-- `git_archive_submodules(repo, treeish, output, prefix, comp_type,
comp_level, comp_opts)`: sanitize the prefix, derive the uncompressed tarfile
name by splitting the output at its last dot, make a staging directory, run the try
block, and in all cases remove the staging directory (the `finally:`). -/
def git_archive_submodules (env : Env) (treeish output p ct cl co : String) :
    Except PyErr Unit × List Event :=
  let pfx := sanitize_prefix p
  let tarfile := rsplit1_first output '.'
  let subfile := env.tempdir ++ "/submodule.tar"
  let body := gasTry env treeish output pfx tarfile subfile ct cl co
  (body.1, Event.mkdtemp env.tempdir :: (body.2 ++ [Event.rmtree env.tempdir]))

/-- `git_archive_single`: one pipeline streaming `git archive` into the
compressor, raising GbpError naming the output on a non-zero status. -/
def git_archive_single (env : Env) (treeish output p ct cl co : String) :
    Except PyErr Unit × List Event :=
  let pfx := sanitize_prefix p
  let pre := "git archive --format=tar --prefix=" ++ pfx ++ " " ++ treeish
  let app := ct ++ " -c -" ++ cl ++ " " ++ co
  let ret := env.pipe_ret pre app
  if ret ≠ 0 then
    (Except.error (PyErr.gbpError ("Error creating " ++ output ++ ": " ++ toString ret)),
      [Event.pipeline pre app "" output])
  else
    (Except.ok (), [Event.pipeline pre app "" output])

/-- Modelled from the spec: the archive-assembly entry point that chooses
between the two algorithms is not among the given sources; per spec section
4.3 the submodule-aware path is selected exactly when the tree has nested
submodules to include, so a tree with zero submodules goes through
git_archive_single. -/
def git_archive (env : Env) (treeish output p ct cl co : String) :
    Except PyErr Unit × List Event :=
  if env.submodules.isEmpty then git_archive_single env treeish output p ct cl co
  else git_archive_submodules env treeish output p ct cl co

/-- The submodule loop of dump_tree: chdir into the submodule, run the
archive/extract pipeline, chdir back to `top`, raise GbpError on a non-zero
pipeline status.  A failing chdir raises OSError before any pipeline runs.
Returns the pending exception, the event trace and the working directory
after the loop stops. -/
def dumpTreeSubLoop (env : Env) (pfx output_dir top : String) :
    List (String × String) → String → Except PyErr Unit × List Event × String
  | [], cwd => (Except.ok (), [], cwd)
  | (subdir, commit) :: rest, cwd =>
    if env.chdir_fails subdir then
      (Except.error (PyErr.osError ("chdir " ++ subdir)), [], cwd)
    else
      let pre := "git archive --format=tar --prefix=" ++ pfx ++
        submodule_tarpath subdir ++ "/ " ++ commit
      let app := "tar -C " ++ pipes_quote output_dir ++ " -xf -"
      let ret := env.pipe_ret pre app
      if ret ≠ 0 then
        (Except.error (PyErr.gbpError
            ("Error in dump_tree archive pipe in submodule " ++ subdir)),
          [Event.chdir subdir, Event.pipeline pre app "" "", Event.chdir top], top)
      else
        let r := dumpTreeSubLoop env pfx output_dir top rest top
        (r.1, Event.chdir subdir :: Event.pipeline pre app "" "" ::
              Event.chdir top :: r.2.1, r.2.2)

/-- The `try:` block of dump_tree: main archive/extract pipeline, then (when
recursive with submodules) update submodules and run the submodule loop. -/
def dumpTreeBody (env : Env) (export_dir treeish : String)
    (with_submodules recursive : Bool) (cwd0 : String) :
    Except PyErr Unit × List Event × String :=
  let output_dir := posix_dirname export_dir
  let pfx := sanitize_prefix (posix_basename export_dir)
  let paths := if recursive then []
    else (env.list_tree.filter (fun m => m.2.1 = "blob")).map
      (fun m => "\x27" ++ m.2.2.2 ++ "\x27")
  let pre := "git archive --format=tar --prefix=" ++ pfx ++ " " ++ treeish ++
    " -- " ++ String.intercalate " " paths
  let app := "tar -C " ++ pipes_quote output_dir ++ " -xf -"
  let ret := env.pipe_ret pre app
  if ret ≠ 0 then
    (Except.error (PyErr.gbpError "Error in dump_tree archive pipe"),
      [Event.pipeline pre app "" ""], cwd0)
  else if recursive && with_submodules then
    if env.has_submodules && env.update_raises then
      (Except.error (PyErr.exc "update_submodules"),
        [Event.pipeline pre app "" ""], cwd0)
    else
      let r := dumpTreeSubLoop env pfx output_dir cwd0 env.submodules cwd0
      (r.1, Event.pipeline pre app "" "" :: r.2.1, r.2.2)
  else (Except.ok (), [Event.pipeline pre app "" ""], cwd0)

/-- `dump_tree(repo, export_dir, treeish, with_submodules, recursive)`: run the
try block; every caught exception (OSError, GbpError, anything else) is logged
and turned into the return value `false`, success returns `true`; the
`finally:` block changes back to `top`, the working directory saved at entry
(`os.path.abspath(os.path.curdir)`).  Returns the boolean result, the event
trace and the final working directory. -/
def dump_tree (env : Env) (export_dir treeish : String)
    (with_submodules recursive : Bool) (cwd0 : String) :
    Bool × List Event × String :=
  let top := cwd0
  let r := dumpTreeBody env export_dir treeish with_submodules recursive cwd0
  match r.1 with
  | Except.ok _ => (true, r.2.1 ++ [Event.chdir top], top)
  | Except.error _ => (false, r.2.1 ++ [Event.chdir top], top)

/-- Directory bookkeeping for a trace: `mkdtemp` creates a directory,
`rmtree` deletes it, every other event leaves the set of temporary
directories unchanged. -/
def applyEvent (dirs : List String) : Event → List String
  | Event.mkdtemp d => d :: dirs
  | Event.rmtree d => dirs.erase d
  | _ => dirs

/-- The set of temporary directories existing after running a trace. -/
def dirsAfter (dirs : List String) (evs : List Event) : List String :=
  evs.foldl applyEvent dirs

/-- Whether an event is a submodule archive invocation (an archive call with
an explicit working directory). -/
def isSubArchive : Event → Bool
  | Event.archive _ _ _ (some _) => true
  | _ => false

/-- Whether an event is a tar concatenation. -/
def isCatenate : Event → Bool
  | Event.catenate _ _ => true
  | _ => false

/-- Oracle for the command wrapper: the return code of `subprocess.call`, or `none`
when the process could not be started (OSError). -/
structure CmdEnv where
  call_result : List String → Option Int

/-- Outcome of `Command.__call__`: normal return, or the single uniform
CommandExecFailed exception (which carries no data). -/
inductive CmdOutcome where
  | ok
  | commandExecFailed
deriving DecidableEq

/-- The pre-formatted `run_error` message of a Command. -/
def run_error (cmd : String) (args : List String) : String :=
  "Couldn\x27t run \x27" ++ cmd ++ " " ++ String.intercalate " " args ++ "\x27"

/-- `Command.__run`: call the child process; a negative code prints the signal
diagnostic, a positive one the return-code diagnostic; an OSError prints the
execution-failure diagnostic and sets the code to 1; any non-zero code prints
`run_error`.  Returns the code and the error-stream lines. -/
def command_run (env : CmdEnv) (cmd : String) (args extra : List String) :
    Int × List String :=
  let r : Int × List String :=
    match env.call_result (cmd :: (args ++ extra)) with
    | some retcode =>
      if retcode < 0 then
        (retcode, [cmd ++ " was terminated by signal " ++ toString (-retcode)])
      else if retcode > 0 then
        (retcode, [cmd ++ " returned " ++ toString retcode])
      else (retcode, [])
    | none => (1, ["Execution failed:"])
  if r.1 ≠ 0 then (r.1, r.2 ++ [run_error cmd args]) else r

/-- `Command.__call__`: raise CommandExecFailed when `__run` returns a truthy
(non-zero) code, return normally otherwise. -/
def command_call (env : CmdEnv) (cmd : String) (args extra : List String) :
    CmdOutcome :=
  if (command_run env cmd args extra).1 ≠ 0 then CmdOutcome.commandExecFailed
  else CmdOutcome.ok

/-- A concrete successful environment with two submodules, used to exercise
the theorems on concrete inputs. -/
def envW : Env :=
  ⟨[("./a", "c1"), ("b", "c2")], "/tmp/t", fun _ _ _ _ => false, fun _ _ => false,
   fun _ => 0, fun _ _ => 0, true, false, fun _ => false, []⟩

/-- A concrete environment whose pipelines all fail with status 1. -/
def envB : Env :=
  ⟨[("s", "c")], "/tmp/t", fun _ _ _ _ => false, fun _ _ => false,
   fun _ => 0, fun _ _ => 1, true, false, fun _ => false, []⟩

/-- A concrete environment with no submodules. -/
def envZ : Env :=
  ⟨[], "/tmp/t", fun _ _ _ _ => false, fun _ _ => false,
   fun _ => 0, fun _ _ => 0, false, false, fun _ => false, []⟩

/-- A concrete command environment whose child process dies on signal 3. -/
def cenvW : CmdEnv := ⟨fun _ => some (-3)⟩

/-- A concrete environment whose compressor invocation exits with status 2. -/
def envC : Env :=
  ⟨[("./a", "c1")], "/tmp/t", fun _ _ _ _ => false, fun _ _ => false,
   fun _ => 2, fun _ _ => 0, true, false, fun _ => false, []⟩

/-! ### Helper lemmas about `dropWhile` and `pyStrip` -/

theorem dropWhile_head_ne {p : Char → Bool} :
    ∀ (l : List Char) (x : Char) (xs : List Char),
      l.dropWhile p = x :: xs → p x = false := by
  intro l
  induction l with
  | nil => intro x xs h; simp [List.dropWhile] at h
  | cons a as ih =>
    intro x xs h
    by_cases hpa : p a = true
    · rw [List.dropWhile_cons, if_pos hpa] at h
      exact ih x xs h
    · rw [List.dropWhile_cons, if_neg hpa] at h
      cases h
      simpa using hpa

theorem dropWhile_eq_self_head {p : Char → Bool} (l : List Char)
    (h : ∀ x, l.head? = some x → p x = false) : l.dropWhile p = l := by
  cases l with
  | nil => rfl
  | cons a as =>
    rw [List.dropWhile_cons, if_neg]
    simp [h a rfl]

theorem dropWhile_getLast_eq {p : Char → Bool} :
    ∀ (l : List Char), l.dropWhile p = [] ∨ (l.dropWhile p).getLast? = l.getLast? := by
  intro l
  induction l with
  | nil => exact Or.inl rfl
  | cons a as ih =>
    by_cases hpa : p a = true
    · cases as with
      | nil => left; simp [List.dropWhile_cons, hpa, List.dropWhile]
      | cons b bs =>
        rw [List.dropWhile_cons, if_pos hpa]
        rcases ih with h | h
        · exact Or.inl h
        · right; rw [h, List.getLast?_cons_cons]
    · right; rw [List.dropWhile_cons, if_neg hpa]

theorem pyStrip_head (c : Char) (l : List Char) :
    ∀ x, (pyStrip c l).head? = some x → x ≠ c := by
  intro x hx
  unfold pyStrip at hx
  rw [List.head?_reverse] at hx
  rcases dropWhile_getLast_eq (p := fun y => y == c)
      ((l.dropWhile (fun y => y == c)).reverse) with h | h
  · rw [h] at hx; simp at hx
  · rw [h, List.getLast?_reverse] at hx
    cases hd : (l.dropWhile (fun y => y == c)) with
    | nil => rw [hd] at hx; simp at hx
    | cons y ys =>
      rw [hd] at hx
      simp at hx
      subst hx
      have := dropWhile_head_ne (p := fun y => y == c) l y ys hd
      simpa using this

theorem pyStrip_getLast (c : Char) (l : List Char) :
    ∀ x, (pyStrip c l).getLast? = some x → x ≠ c := by
  intro x hx
  unfold pyStrip at hx
  rw [List.getLast?_reverse] at hx
  cases hd : ((l.dropWhile (fun y => y == c)).reverse.dropWhile (fun y => y == c)) with
  | nil => rw [hd] at hx; simp at hx
  | cons y ys =>
    rw [hd] at hx
    simp at hx
    subst hx
    have := dropWhile_head_ne (p := fun y => y == c)
      (l.dropWhile (fun y => y == c)).reverse y ys hd
    simpa using this

theorem pyStrip_append_singleton (c : Char) (s : List Char)
    (h1 : ∀ x, s.head? = some x → x ≠ c) (h2 : ∀ x, s.getLast? = some x → x ≠ c) :
    pyStrip c (s ++ [c]) = s := by
  cases s with
  | nil => simp [pyStrip, List.dropWhile]
  | cons a as =>
    unfold pyStrip
    have ha : (a == c) = false := by
      have := h1 a rfl
      simp [this]
    have e1 : ((a :: as) ++ [c]).dropWhile (fun x => x == c) = (a :: as) ++ [c] := by
      rw [List.cons_append, List.dropWhile_cons, if_neg]
      simp [ha]
    rw [e1]
    have e2 : ((a :: as) ++ [c]).reverse = c :: (a :: as).reverse := by
      simp
    rw [e2, List.dropWhile_cons, if_pos (by simp)]
    have e3 : (a :: as).reverse.dropWhile (fun x => x == c) = (a :: as).reverse := by
      apply dropWhile_eq_self_head
      intro x hx
      rw [List.head?_reverse] at hx
      have := h2 x hx
      simp [this]
    rw [e3, List.reverse_reverse]

theorem sanitize_prefix_data (p : String) (hp : p ≠ "") :
    ( sanitize_prefix p).data = pyStrip '/' p.data ++ ['/'] := by
  unfold sanitize_prefix
  rw [if_neg hp, String.data_append]

/-! ### C2 and C9: sanitize_prefix -/

/-- C2: sanitize_prefix is total and, for every input string, its result ends
with exactly one trailing separator and the part before that final separator
neither ends nor begins with a separator; in particular it maps `""` to `"/"`,
`"foo/"` to itself and `"/foo/bar"` to `"foo/bar/"`. -/
theorem sanitize_prefix_shape (p : String) :
    (( sanitize_prefix p).data.getLast? = some '/') ∧
    (∀ x, (( sanitize_prefix p).data.dropLast).getLast? = some x → x ≠ '/') ∧
    (∀ x, (( sanitize_prefix p).data.dropLast).head? = some x → x ≠ '/') ∧
    sanitize_prefix "" = "/" ∧ sanitize_prefix "foo/" = "foo/" ∧
    sanitize_prefix "/foo/bar" = "foo/bar/" := by
  refine ⟨?_, ?_, ?_, by decide, by decide, by decide⟩
  · by_cases hp : p = ""
    · subst hp; decide
    · rw [ sanitize_prefix_data p hp, List.getLast?_concat]
  · intro x hx
    by_cases hp : p = ""
    · subst hp
      have h0 : (( sanitize_prefix "").data.dropLast) = ([] : List Char) := by decide
      rw [h0] at hx
      simp at hx
    · rw [ sanitize_prefix_data p hp, List.dropLast_concat] at hx
      exact pyStrip_getLast '/' p.data x hx
  · intro x hx
    by_cases hp : p = ""
    · subst hp
      have h0 : (( sanitize_prefix "").data.dropLast) = ([] : List Char) := by decide
      rw [h0] at hx
      simp at hx
    · rw [ sanitize_prefix_data p hp, List.dropLast_concat] at hx
      exact pyStrip_head '/' p.data x hx

/-- Witness for sanitize_prefix_shape at the concrete input "/foo/bar". -/
theorem sanitize_prefix_shape_w :
    ( sanitize_prefix "/foo/bar").data.getLast? = some '/' ∧ ('r' : Char) ≠ '/' :=
  ⟨( sanitize_prefix_shape "/foo/bar").1,
   ( sanitize_prefix_shape "/foo/bar").2.1 'r' (by decide)⟩

/-- C9: sanitize_prefix is idempotent. -/
theorem sanitize_prefix_idem (p : String) :
    sanitize_prefix ( sanitize_prefix p) = sanitize_prefix p := by
  by_cases hp : p = ""
  · subst hp; decide
  · have hd := sanitize_prefix_data p hp
    have hne : sanitize_prefix p ≠ "" := by
      intro h
      have h0 : (( sanitize_prefix p).data) = [] := by rw [h]
      rw [hd] at h0
      simp at h0
    apply String.ext
    rw [ sanitize_prefix_data _ hne, hd]
    rw [pyStrip_append_singleton '/' (pyStrip '/' p.data)
          (pyStrip_head '/' p.data) (pyStrip_getLast '/' p.data)]

/-! ### Trace bookkeeping lemmas -/

theorem dirsAfter_nil (d : List String) : dirsAfter d [] = d := rfl

theorem dirsAfter_cons (d : List String) (e : Event) (l : List Event) :
    dirsAfter d (e :: l) = dirsAfter (applyEvent d e) l := rfl

theorem dirsAfter_append (d : List String) (l1 l2 : List Event) :
    dirsAfter d (l1 ++ l2) = dirsAfter (dirsAfter d l1) l2 :=
  List.foldl_append _ _ _ _

theorem archiveSubLoop_dirs (env : Env) (pfx tf sf : String) :
    ∀ (subs : List (String × String)) (d : List String),
      dirsAfter d (archiveSubLoop env pfx tf sf subs).2 = d := by
  intro subs
  induction subs with
  | nil => intro d; rfl
  | cons sc rest ih =>
    intro d
    obtain ⟨subdir, commit⟩ := sc
    by_cases h1 : env.archive_raises (pfx ++ submodule_tarpath subdir ++ "/")
        sf commit (some subdir) = true
    · simp [archiveSubLoop, h1, dirsAfter_nil]
    · by_cases h2 : env.catenate_raises tf sf = true
      · simp [archiveSubLoop, h1, h2, dirsAfter_cons, dirsAfter_nil, applyEvent]
      · simp [archiveSubLoop, h1, h2, dirsAfter_cons, applyEvent, ih]

theorem gasTry_dirs (env : Env) (treeish output pfx tf sf ct cl co : String)
    (d : List String) :
    dirsAfter d (gasTry env treeish output pfx tf sf ct cl co).2 = d := by
  unfold gasTry
  by_cases h1 : env.archive_raises pfx tf treeish none = true
  · simp [h1, dirsAfter_nil]
  · rw [if_neg h1]
    cases hE : (archiveSubLoop env pfx tf sf env.submodules).1 with
    | error e =>
      simp only [hE]
      simp [dirsAfter_cons, applyEvent, archiveSubLoop_dirs]
    | ok u =>
      simp only [hE]
      split <;>
        simp [dirsAfter_cons, dirsAfter_append, applyEvent, archiveSubLoop_dirs,
          dirsAfter_nil]

/-- C3: git_archive_submodules removes its staging directory on every exit
path: for any oracle behaviour (success, failed compression, or an exception
from any archive/concatenate step) the temporary directories existing after
the call equal those existing before, and in particular the fresh staging
directory no longer exists. -/
theorem git_archive_submodules_cleanup (env : Env)
    (treeish output p ct cl co : String) (dirs0 : List String)
    (hfresh : env.tempdir ∉ dirs0) :
    dirsAfter dirs0 (git_archive_submodules env treeish output p ct cl co).2 = dirs0 ∧
    env.tempdir ∉ dirsAfter dirs0 (git_archive_submodules env treeish output p ct cl co).2 := by
  have h : dirsAfter dirs0 (git_archive_submodules env treeish output p ct cl co).2 = dirs0 := by
    unfold git_archive_submodules
    simp only [dirsAfter_cons, dirsAfter_append, applyEvent]
    rw [gasTry_dirs]
    simp [dirsAfter_cons, dirsAfter_nil, applyEvent, List.erase_cons_head]
  exact ⟨h, by rw [h]; exact hfresh⟩

/-- Witness for the cleanup theorem on a concrete environment. -/
theorem git_archive_submodules_cleanup_w :
    "/tmp/t" ∉ dirsAfter [] (git_archive_submodules envW "HEAD" "o.tar.gz" "p" "gzip" "9" "x").2 :=
  (git_archive_submodules_cleanup envW "HEAD" "o.tar.gz" "p" "gzip" "9" "x" []
    (by simp)).2

/-! ### Success-path trace of git_archive_submodules -/

theorem archiveSubLoop_ok (env : Env) (pfx tarfile subfile : String)
    (ha : ∀ a b c d, env.archive_raises a b c d = false)
    (hc : ∀ a b, env.catenate_raises a b = false) :
    ∀ subs : List (String × String),
      archiveSubLoop env pfx tarfile subfile subs =
        (Except.ok (), (subs.map (fun sc =>
          [Event.archive (pfx ++ submodule_tarpath sc.1 ++ "/") subfile sc.2 (some sc.1),
           Event.catenate tarfile subfile])).flatten) := by
  intro subs
  induction subs with
  | nil => rfl
  | cons sc rest ih =>
    obtain ⟨subdir, commit⟩ := sc
    simp [archiveSubLoop, ha, hc, ih]

theorem gas_run (env : Env) (treeish output p ct cl co : String)
    (ha : ∀ a b c d, env.archive_raises a b c d = false)
    (hc : ∀ a b, env.catenate_raises a b = false) :
    git_archive_submodules env treeish output p ct cl co =
      ((if env.os_system_ret (ct ++ " -" ++ cl ++ " " ++ co ++ " " ++
            rsplit1_first output '.') ≠ 0 then
          Except.error (PyErr.gbpError ("Error creating " ++ output ++ ": " ++
            toString (env.os_system_ret (ct ++ " -" ++ cl ++ " " ++ co ++ " " ++
              rsplit1_first output '.'))))
        else Except.ok ()),
       Event.mkdtemp env.tempdir ::
         ((Event.archive ( sanitize_prefix p) (rsplit1_first output '.') treeish none ::
           (((env.submodules.map (fun sc =>
             [Event.archive (( sanitize_prefix p) ++ submodule_tarpath sc.1 ++ "/")
                 (env.tempdir ++ "/submodule.tar") sc.2 (some sc.1),
              Event.catenate (rsplit1_first output '.')
                (env.tempdir ++ "/submodule.tar")])).flatten) ++
            [Event.system (ct ++ " -" ++ cl ++ " " ++ co ++ " " ++
              rsplit1_first output '.')])) ++
          [Event.rmtree env.tempdir])) := by
  simp only [git_archive_submodules, gasTry]
  rw [archiveSubLoop_ok env _ _ _ ha hc, ha]
  simp only [Bool.false_eq_true, if_false]
  split <;> rfl

theorem subarchive_counts (pfx tarfile subfile : String) :
    ∀ subs : List (String × String),
      ((subs.map (fun sc =>
        [Event.archive (pfx ++ submodule_tarpath sc.1 ++ "/") subfile sc.2 (some sc.1),
         Event.catenate tarfile subfile])).flatten.filter isSubArchive).length = subs.length ∧
      ((subs.map (fun sc =>
        [Event.archive (pfx ++ submodule_tarpath sc.1 ++ "/") subfile sc.2 (some sc.1),
         Event.catenate tarfile subfile])).flatten.filter isCatenate).length = subs.length := by
  intro subs
  induction subs with
  | nil => simp
  | cons sc rest ih =>
    simp only [List.map_cons, List.flatten_cons, List.filter_append, List.filter_cons,
      List.filter_nil, List.length_append, List.length_cons]
    simp [isSubArchive, isCatenate, ih.1, ih.2, Nat.add_comm, -List.filter_flatten,
      -List.length_flatten]

/-- C6: when the backend reports N submodules and no step fails,
git_archive_submodules emits exactly one submodule archive and one
concatenation per reported submodule, in the order of the backend: the whole trace
is the staging-directory creation, the main archive, then per submodule (in
order) its archive and its concatenation, then the compressor call and the
staging-directory removal; in particular the number of intermediate submodule
archives and of concatenations both equal N. -/
theorem git_archive_submodules_order (env : Env) (treeish output p ct cl co : String)
    (ha : ∀ a b c d, env.archive_raises a b c d = false)
    (hc : ∀ a b, env.catenate_raises a b = false) :
    (git_archive_submodules env treeish output p ct cl co).2 =
      Event.mkdtemp env.tempdir ::
        ((Event.archive ( sanitize_prefix p) (rsplit1_first output '.') treeish none ::
          (((env.submodules.map (fun sc =>
            [Event.archive (( sanitize_prefix p) ++ submodule_tarpath sc.1 ++ "/")
                (env.tempdir ++ "/submodule.tar") sc.2 (some sc.1),
             Event.catenate (rsplit1_first output '.')
               (env.tempdir ++ "/submodule.tar")])).flatten) ++
           [Event.system (ct ++ " -" ++ cl ++ " " ++ co ++ " " ++
             rsplit1_first output '.')])) ++
         [Event.rmtree env.tempdir]) ∧
    ((git_archive_submodules env treeish output p ct cl co).2.filter isSubArchive).length =
      env.submodules.length ∧
    ((git_archive_submodules env treeish output p ct cl co).2.filter isCatenate).length =
      env.submodules.length := by
  have htr := congrArg Prod.snd (gas_run env treeish output p ct cl co ha hc)
  refine ⟨htr, ?_, ?_⟩
  · rw [htr]
    simp [isSubArchive, isCatenate, -List.filter_flatten, -List.length_flatten,
      (subarchive_counts ( sanitize_prefix p) (rsplit1_first output '.')
        (env.tempdir ++ "/submodule.tar") env.submodules).1]
  · rw [htr]
    simp [isSubArchive, isCatenate, -List.filter_flatten, -List.length_flatten,
      (subarchive_counts ( sanitize_prefix p) (rsplit1_first output '.')
        (env.tempdir ++ "/submodule.tar") env.submodules).2]

/-- Witness for the ordering theorem: the concrete two-submodule environment
yields exactly two intermediate submodule archives. -/
theorem git_archive_submodules_order_w :
    ((git_archive_submodules envW "HEAD" "o.tar.gz" "p" "gzip" "9" "x").2.filter
      isSubArchive).length = 2 :=
  (git_archive_submodules_order envW "HEAD" "o.tar.gz" "p" "gzip" "9" "x"
    (fun _ _ _ _ => rfl) (fun _ _ => rfl)).2.1

/-- C10: the uncompressed intermediate archive path is the output with its
final extension stripped; for an output containing no dot it equals the
output itself, the compressor runs on that same path, and a compression
failure raises a GbpError naming the original output. -/
theorem git_archive_submodules_tarfile (env : Env)
    (treeish output p ct cl co : String)
    (hdot : '.' ∉ output.data)
    (ha : ∀ a b c d, env.archive_raises a b c d = false)
    (hc : ∀ a b, env.catenate_raises a b = false) :
    rsplit1_first output '.' = output ∧
    Event.system (ct ++ " -" ++ cl ++ " " ++ co ++ " " ++ output) ∈
      (git_archive_submodules env treeish output p ct cl co).2 ∧
    (∀ r : Nat, env.os_system_ret (ct ++ " -" ++ cl ++ " " ++ co ++ " " ++ output) = r →
      r ≠ 0 →
      (git_archive_submodules env treeish output p ct cl co).1 =
        Except.error (PyErr.gbpError
          ("Error creating " ++ output ++ ": " ++ toString r))) := by
  have h0 : rsplit1_first output '.' = output := by
    unfold rsplit1_first
    rw [if_neg hdot]
  refine ⟨h0, ?_, ?_⟩
  · have htr := congrArg Prod.snd (gas_run env treeish output p ct cl co ha hc)
    rw [htr, h0]
    simp
  · intro r hr hne
    have hres := congrArg Prod.fst (gas_run env treeish output p ct cl co ha hc)
    rw [hres, h0, hr, if_pos hne]

/-- Witness for the tarfile-derivation theorem on a concrete environment with
a dot-free output path and a failing compressor. -/
theorem git_archive_submodules_tarfile_w :
    (git_archive_submodules envC "HEAD" "outtar" "p" "gzip" "9" "x").1 =
      Except.error (PyErr.gbpError ("Error creating " ++ "outtar" ++ ": " ++ toString 2)) :=
  (git_archive_submodules_tarfile envC "HEAD" "outtar" "p" "gzip" "9" "x"
    (by decide) (fun _ _ _ _ => rfl) (fun _ _ => rfl)).2.2 2 rfl (by decide)

/-! ### The submodule prefix rule (C1) -/

theorem archive_pre_assoc (pfx tp c : String) :
    "git archive --format=tar --prefix=" ++ pfx ++ tp ++ "/ " ++ c =
    "git archive --format=tar --prefix=" ++ (pfx ++ tp ++ "/") ++ " " ++ c := by
  apply String.ext
  have h1 : ("/ " : String).data = ['/', ' '] := rfl
  have h2 : ("/" : String).data = ['/'] := rfl
  have h3 : (" " : String).data = [' '] := rfl
  simp [String.data_append, h1, h2, h3, List.append_assoc]

theorem archiveSubLoop_archive_mem (env : Env) (pfx tf sf : String) :
    ∀ (subs : List (String × String)) (p0 o t sd : String),
      Event.archive p0 o t (some sd) ∈ (archiveSubLoop env pfx tf sf subs).2 →
      ∃ c, (sd, c) ∈ subs ∧ p0 = pfx ++ submodule_tarpath sd ++ "/" := by
  intro subs
  induction subs with
  | nil =>
    intro p0 o t sd h
    simp [archiveSubLoop] at h
  | cons sc rest ih =>
    intro p0 o t sd h
    obtain ⟨subdir, commit⟩ := sc
    by_cases h1 : env.archive_raises (pfx ++ submodule_tarpath subdir ++ "/")
        sf commit (some subdir) = true
    · simp [archiveSubLoop, h1] at h
    · by_cases h2 : env.catenate_raises tf sf = true
      · simp [archiveSubLoop, h1, h2] at h
        obtain ⟨hp, ho, ht, hs⟩ := h
        exact ⟨commit, by simp [hs], by rw [hp, hs]⟩
      · simp [archiveSubLoop, h1, h2] at h
        rcases h with h | h
        · obtain ⟨hp, ho, ht, hs⟩ := h
          exact ⟨commit, by simp [hs], by rw [hp, hs]⟩
        · obtain ⟨c, hm, hp⟩ := ih p0 o t sd h
          exact ⟨c, by simp [hm], hp⟩

theorem gasTry_archive_mem (env : Env)
    (treeish output pfx tf sf ct cl co p0 o t sd : String)
    (h : Event.archive p0 o t (some sd) ∈
      (gasTry env treeish output pfx tf sf ct cl co).2) :
    ∃ c, (sd, c) ∈ env.submodules ∧ p0 = pfx ++ submodule_tarpath sd ++ "/" := by
  unfold gasTry at h
  by_cases h1 : env.archive_raises pfx tf treeish none = true
  · rw [if_pos h1] at h
    simp at h
  · rw [if_neg h1] at h
    cases hE : (archiveSubLoop env pfx tf sf env.submodules).1 with
    | error e =>
      simp only [hE] at h
      simp at h
      exact archiveSubLoop_archive_mem env pfx tf sf env.submodules p0 o t sd h
    | ok u =>
      simp only [hE] at h
      split at h <;>
      · simp at h
        exact archiveSubLoop_archive_mem env pfx tf sf env.submodules p0 o t sd h

theorem gas_archive_mem (env : Env) (treeish output p ct cl co p0 o t sd : String)
    (h : Event.archive p0 o t (some sd) ∈
      (git_archive_submodules env treeish output p ct cl co).2) :
    ∃ c, (sd, c) ∈ env.submodules ∧
      p0 = sanitize_prefix p ++ submodule_tarpath sd ++ "/" := by
  simp only [git_archive_submodules, List.mem_cons, List.mem_append,
    List.mem_singleton] at h
  rcases h with h | h | h
  · simp at h
  · exact gasTry_archive_mem env treeish output ( sanitize_prefix p)
      (rsplit1_first output '.') (env.tempdir ++ "/submodule.tar") ct cl co p0 o t sd h
  · simp at h

theorem dumpTreeSubLoop_pipeline_mem (env : Env) (pfx od top : String) :
    ∀ (subs : List (String × String)) (cwd pre app i o : String),
      Event.pipeline pre app i o ∈ (dumpTreeSubLoop env pfx od top subs cwd).2.1 →
      ∃ sd c, (sd, c) ∈ subs ∧
        pre = "git archive --format=tar --prefix=" ++
          (pfx ++ submodule_tarpath sd ++ "/") ++ " " ++ c := by
  intro subs
  induction subs with
  | nil =>
    intro cwd pre app i o h
    simp [dumpTreeSubLoop] at h
  | cons sc rest ih =>
    intro cwd pre app i o h
    obtain ⟨subdir, commit⟩ := sc
    by_cases h1 : env.chdir_fails subdir = true
    · simp [dumpTreeSubLoop, h1] at h
    · by_cases h2 : env.pipe_ret
          ("git archive --format=tar --prefix=" ++ pfx ++
            submodule_tarpath subdir ++ "/ " ++ commit)
          ("tar -C " ++ pipes_quote od ++ " -xf -") = 0
      · simp [dumpTreeSubLoop, h1, h2] at h
        rcases h with h | h
        · exact ⟨subdir, commit, by simp,
            by rw [h.1]; exact archive_pre_assoc pfx ( submodule_tarpath subdir) commit⟩
        · obtain ⟨sd, c, hm, hp⟩ := ih top pre app i o h
          exact ⟨sd, c, by simp [hm], hp⟩
      · simp [dumpTreeSubLoop, h1, h2] at h
        exact ⟨subdir, commit, by simp,
          by rw [h.1]; exact archive_pre_assoc pfx ( submodule_tarpath subdir) commit⟩

/-- C1: the archive-internal path of a submodule strips a leading "./" (and
exactly those two characters) and is otherwise the recorded path unchanged;
every submodule archive invocation of git_archive_submodules and every
submodule pipeline of the recursive branch of dump_tree uses the prefix
`<outer-prefix><adjusted-path>/` with exactly one trailing separator. -/
theorem submodule_path_adjustment :
    (∀ subdir : String, py_startswith subdir "./" = true →
        submodule_tarpath subdir = String.mk (subdir.data.drop 2)) ∧
    (∀ subdir : String, py_startswith subdir "./" = false →
        submodule_tarpath subdir = subdir) ∧
    (∀ (env : Env) (treeish output p ct cl co p0 o t sd : String),
        Event.archive p0 o t (some sd) ∈
          (git_archive_submodules env treeish output p ct cl co).2 →
        ∃ c, (sd, c) ∈ env.submodules ∧
          p0 = sanitize_prefix p ++ submodule_tarpath sd ++ "/") ∧
    (∀ (env : Env) (pfx od top : String) (subs : List (String × String))
        (cwd pre app i o : String),
        Event.pipeline pre app i o ∈ (dumpTreeSubLoop env pfx od top subs cwd).2.1 →
        ∃ sd c, (sd, c) ∈ subs ∧
          pre = "git archive --format=tar --prefix=" ++
            (pfx ++ submodule_tarpath sd ++ "/") ++ " " ++ c) := by
  refine ⟨?_, ?_, ?_, ?_⟩
  · intro subdir h
    simp [ submodule_tarpath, h]
  · intro subdir h
    simp [ submodule_tarpath, h]
  · intro env treeish output p ct cl co p0 o t sd h
    exact gas_archive_mem env treeish output p ct cl co p0 o t sd h
  · intro env pfx od top subs cwd pre app i o h
    exact dumpTreeSubLoop_pipeline_mem env pfx od top subs cwd pre app i o h

/-- Witness for the path-adjustment theorem: concrete "./"-stripping and a
concrete submodule archive event of the two-submodule environment. -/
theorem submodule_path_adjustment_w :
    submodule_tarpath "./x" = String.mk ("./x".data.drop 2) ∧
    (∃ c, ("./a", c) ∈ envW.submodules ∧
      "p/a/" = sanitize_prefix "p" ++ submodule_tarpath "./a" ++ "/") :=
  ⟨ submodule_path_adjustment.1 "./x" (by decide),
    submodule_path_adjustment.2.2.1 envW "HEAD" "o.tar.gz" "p" "gzip" "9" "x"
      "p/a/" "/tmp/t/submodule.tar" "c1" "./a" (by decide)⟩

/-! ### dump_tree: working directory and error swallowing -/

/-- C4: after any call to dump_tree — success, caught error, or an error
injected at any point of the submodule loop (any oracle behaviour) — the
process working directory equals its value at the start of the call. -/
theorem dump_tree_restores_cwd (env : Env) (ed t : String) (ws rc : Bool)
    (cwd0 : String) :
    (dump_tree env ed t ws rc cwd0).2.2 = cwd0 := by
  simp only [dump_tree]
  split <;> rfl

/-- C5: dump_tree never propagates an exception: it is a total function into
Bool which returns true exactly when the whole export body succeeded, and
every exception of the body (OSError, GbpError, or any other) yields false. -/
theorem dump_tree_swallows_errors (env : Env) (ed t : String) (ws rc : Bool)
    (cwd0 : String) :
    ((dump_tree env ed t ws rc cwd0).1 = true ↔
      (dumpTreeBody env ed t ws rc cwd0).1 = Except.ok ()) ∧
    (∀ e, (dumpTreeBody env ed t ws rc cwd0).1 = Except.error e →
      (dump_tree env ed t ws rc cwd0).1 = false) := by
  constructor
  · unfold dump_tree
    cases h : (dumpTreeBody env ed t ws rc cwd0).1 with
    | ok u => cases u; simp [h]
    | error e => simp [h]
  · intro e he
    unfold dump_tree
    simp [he]

/-- Witness: on the all-pipelines-fail environment the body raises a GbpError
and dump_tree returns false. -/
theorem dump_tree_swallows_errors_w :
    (dump_tree envB "a/b" "HEAD" true true "/top").1 = false :=
  (dump_tree_swallows_errors envB "a/b" "HEAD" true true "/top").2
    (PyErr.gbpError "Error in dump_tree archive pipe") rfl

/-! ### The command wrapper -/

theorem command_run_fst (env : CmdEnv) (cmd : String) (args extra : List String) :
    (command_run env cmd args extra).1 =
      match env.call_result (cmd :: (args ++ extra)) with
      | some k => k
      | none => 1 := by
  unfold command_run
  cases h : env.call_result (cmd :: (args ++ extra)) with
  | none => simp
  | some k =>
    by_cases hneg : k < 0
    · simp [hneg]
      split <;> rfl
    · by_cases hpos : k > 0
      · simp [hneg, hpos]
        split <;> rfl
      · have hz : k = 0 := le_antisymm (not_lt.mp hpos) (not_lt.mp hneg)
        simp [hneg, hpos, hz]

/-- C7: invoking a Command returns normally iff the child exits with code 0;
a positive code, a negative code (signal) and a failure to start the process
(no return code at all) each raise the same uniform CommandExecFailed, which
carries no structural information. -/
theorem command_call_exit_code (env : CmdEnv) (cmd : String)
    (args extra : List String) :
    (command_call env cmd args extra = CmdOutcome.ok ↔
      env.call_result (cmd :: (args ++ extra)) = some 0) ∧
    (∀ k : Int, env.call_result (cmd :: (args ++ extra)) = some k → k ≠ 0 →
      command_call env cmd args extra = CmdOutcome.commandExecFailed) ∧
    (env.call_result (cmd :: (args ++ extra)) = none →
      command_call env cmd args extra = CmdOutcome.commandExecFailed) := by
  have hf := command_run_fst env cmd args extra
  refine ⟨?_, ?_, ?_⟩
  · unfold command_call
    rw [hf]
    cases h : env.call_result (cmd :: (args ++ extra)) with
    | none => simp
    | some k =>
      by_cases hk : k = 0
      · subst hk; simp
      · simp [hk]
  · intro k hk hne
    unfold command_call
    rw [hf, hk]
    simp [hne]
  · intro h
    unfold command_call
    rw [hf, h]
    simp

/-- Witness: a signal death (return code -3) raises CommandExecFailed. -/
theorem command_call_exit_code_w :
    command_call cenvW "git" ["a"] [] = CmdOutcome.commandExecFailed :=
  (command_call_exit_code cenvW "git" ["a"] []).2.1 (-3) rfl (by decide)

/-! ### Zero-submodule archive assembly -/

/-- C8: archive assembly for a tree with zero submodules is a single pipeline
invocation streaming the export into the compressor, and its trace contains
no staging-directory creation. -/
theorem git_archive_zero_submodules (env : Env) (treeish output p ct cl co : String)
    (h0 : env.submodules = []) :
    (git_archive env treeish output p ct cl co).2 =
      [Event.pipeline
        ("git archive --format=tar --prefix=" ++ sanitize_prefix p ++ " " ++ treeish)
        (ct ++ " -c -" ++ cl ++ " " ++ co) "" output] ∧
    (∀ d, Event.mkdtemp d ∉ (git_archive env treeish output p ct cl co).2) := by
  have hsel : env.submodules.isEmpty = true := by simp [h0]
  have htr : (git_archive env treeish output p ct cl co).2 =
      [Event.pipeline
        ("git archive --format=tar --prefix=" ++ sanitize_prefix p ++ " " ++ treeish)
        (ct ++ " -c -" ++ cl ++ " " ++ co) "" output] := by
    simp only [git_archive, git_archive_single, hsel, if_true]
    split <;> rfl
  refine ⟨htr, ?_⟩
  intro d hd
  rw [htr] at hd
  simp at hd

/-- Witness for the zero-submodule theorem on the concrete submodule-free
environment. -/
theorem git_archive_zero_submodules_w :
    (git_archive envZ "HEAD" "o.tar.gz" "p" "gzip" "9" "x").2 =
      [Event.pipeline
        ("git archive --format=tar --prefix=" ++ sanitize_prefix "p" ++ " " ++ "HEAD")
        ("gzip" ++ " -c -" ++ "9" ++ " " ++ "x") "" "o.tar.gz"] :=
  (git_archive_zero_submodules envZ "HEAD" "o.tar.gz" "p" "gzip" "9" "x" rfl).1
